import Mathlib

/-!
Verification of the Erlang-C working-vacation staffing script (`main.py`).

The Python floats are idealised as real numbers; `**` on a real exponent is
`Real.rpow`, `math.e` is `Real.exp 1`, Python `round` (banker's rounding,
ties to even) is `pyRound`, `round(x, d)` is `roundTo d x`, and `math.ceil`
is `Int.ceil`.  Code that can raise a Python exception (`ZeroDivisionError`,
`ValueError` from `math.factorial` on a negative argument) is modelled as an
`Option` returning `none` at exactly the raising inputs.  The unbounded
`while` loop of `forward` is modelled with an explicit fuel parameter:
`forward fuel … = some r` says the loop terminates within `fuel` iterations
returning `r`, and a run that returns `none` for every fuel never terminates.
-/

open BigOperators

/-- Python `round` on a real number: nearest integer, ties to even. -/
noncomputable def pyRound (x : ℝ) : ℤ :=
  if x - ⌊x⌋ < 1/2 then ⌊x⌋
  else if 1/2 < x - ⌊x⌋ then ⌊x⌋ + 1
  else if Even ⌊x⌋ then ⌊x⌋ else ⌊x⌋ + 1

/-- Python `round(x, d)`: rounding to `d` decimal places. -/
noncomputable def roundTo (d : ℕ) (x : ℝ) : ℝ :=
  (pyRound (x * 10 ^ d) : ℝ) / 10 ^ d

/-- `get_traffic_intensity` (main.py line 35): `arrival_rate / (num_agents * service_rate)`.
`none` models the `ZeroDivisionError` raised when the denominator is zero. -/
noncomputable def get_traffic_intensity (arrival_rate num_agents service_rate : ℝ) :
    Option ℝ :=
  if num_agents * service_rate = 0 then none
  else some (arrival_rate / (num_agents * service_rate))

/-- The blended traffic intensity (main.py line 52):
`traffic = (vac_prob * traffic_v) + ((1 - vac_prob) * traffic_n)`. -/
def blended_traffic (vac_prob traffic_n traffic_v : ℝ) : ℝ :=
  vac_prob * traffic_v + (1 - vac_prob) * traffic_n

/-- The blended starting agent count (main.py lines 195-197):
`round((vac_prob * vacation_num_agents) + ((1 - vac_prob) * normal_num_agents))`.
The two agent-count constants of the script are integers. -/
noncomputable def blended_num_agents (vac_prob : ℝ)
    (normal_num_agents vacation_num_agents : ℤ) : ℤ :=
  pyRound (vac_prob * (vacation_num_agents : ℝ) +
    (1 - vac_prob) * (normal_num_agents : ℝ))

/-- `ErlangQueue.waiting_probability` (main.py lines 76-93).  The code computes
`x = (A ** num_agents / factorial(round(num_agents))) * num_agents / (num_agents - A)`,
`y = 1 + sum over i in range(round(num_agents)) of A ** i / factorial(i)` and returns
`x / (y + x)`.  Only the factorial argument and the summation range round the
agent count; the power, the multiplier and the stability denominator use the
raw value.  `none` models the exceptions: `math.factorial` on a negative
rounded agent count, and the two possible divisions by zero. -/
noncomputable def waiting_probability (num_agents traffic_intensity : ℝ) : Option ℝ :=
  let N : ℕ := (pyRound num_agents).toNat
  let x : ℝ := traffic_intensity ^ num_agents / (Nat.factorial N : ℝ) * num_agents /
    (num_agents - traffic_intensity)
  let y : ℝ := 1 + ∑ i ∈ Finset.range N, traffic_intensity ^ i / (Nat.factorial i : ℝ)
  if pyRound num_agents < 0 ∨ num_agents - traffic_intensity = 0 then none
  else if y + x = 0 then none
  else some (x / (y + x))

/-- `ErlangQueue.service_level_agreement` (main.py lines 95-108):
`1 - wait_prob * math.e ** -((num_agents - A) * (target_answer_time / average_handling_time))`. -/
noncomputable def service_level_agreement
    (num_agents target_answer_time average_handling_time wait_prob traffic_intensity : ℝ) :
    ℝ :=
  1 - wait_prob * (Real.exp 1 ^
    (-((num_agents - traffic_intensity) *
      (target_answer_time / average_handling_time))))

/-- Modelled from the spec: the `x` term of the Erlang-C formula with the agent
count rounded to the integer `N` throughout: `(A^N / N!) * N / (N - A)`. -/
noncomputable def xval (traffic_intensity : ℝ) (N : ℕ) : ℝ :=
  traffic_intensity ^ N / (Nat.factorial N : ℝ) * (N : ℝ) / ((N : ℝ) - traffic_intensity)

/-- Modelled from the spec: the `y` term of the Erlang-C formula,
`1 + sum over i = 0..N-1 of A^i / i!`. -/
noncomputable def yval (traffic_intensity : ℝ) (N : ℕ) : ℝ :=
  1 + ∑ i ∈ Finset.range N, traffic_intensity ^ i / (Nat.factorial i : ℝ)

/-- Modelled from the spec: the Erlang-C waiting probability with the agent
count rounded to an integer throughout the formula, `x / (x + y)` with
`N = round(num_agents)`. -/
noncomputable def waiting_probability_spec (num_agents traffic_intensity : ℝ) : ℝ :=
  xval traffic_intensity ((pyRound num_agents).toNat) /
    (xval traffic_intensity ((pyRound num_agents).toNat) +
      yval traffic_intensity ((pyRound num_agents).toNat))

/-- The integer-agent-count value of the waiting probability as computed by the
code: `x / (y + x)` with every occurrence of the agent count equal to `N`. -/
noncomputable def wpval (traffic_intensity : ℝ) (N : ℕ) : ℝ :=
  xval traffic_intensity N / (yval traffic_intensity N + xval traffic_intensity N)

/-- The raw (unrounded) service level computed by one iteration of the staffing
loop at a given agent count; this is the value the loop condition tests. -/
noncomputable def trial_sla
    (traffic_intensity num_agents target_answer_time average_handling_time : ℝ) :
    Option ℝ :=
  (waiting_probability num_agents traffic_intensity).map
    (fun wp => service_level_agreement num_agents target_answer_time
      average_handling_time wp traffic_intensity)

/-- The seven parallel output lists of `forward` (main.py lines 121-127). -/
structure ForwardResult where
  wp_list : List ℝ
  sla_list : List ℝ
  agent_list : List ℝ
  average_answer_speed : List ℝ
  percent_calls_answered_immediately : List ℝ
  maximum_occupancy : List ℝ
  num_shrinkage : List ℤ

/-- Concatenation of the seven parallel lists, matching the order in which the
Python loop appends to them. -/
def ForwardResult.append (a b : ForwardResult) : ForwardResult where
  wp_list := a.wp_list ++ b.wp_list
  sla_list := a.sla_list ++ b.sla_list
  agent_list := a.agent_list ++ b.agent_list
  average_answer_speed := a.average_answer_speed ++ b.average_answer_speed
  percent_calls_answered_immediately :=
    a.percent_calls_answered_immediately ++ b.percent_calls_answered_immediately
  maximum_occupancy := a.maximum_occupancy ++ b.maximum_occupancy
  num_shrinkage := a.num_shrinkage ++ b.num_shrinkage

/-- The seven values appended by one iteration of the `forward` loop
(main.py lines 143-154 and 167-178). -/
noncomputable def forwardRow
    (traffic_intensity num_agents target_answer_time average_handling_time
      shrinkage wp : ℝ) : ForwardResult where
  wp_list := [wp]
  sla_list := [roundTo 2 (service_level_agreement num_agents target_answer_time
    average_handling_time wp traffic_intensity * 100)]
  agent_list := [num_agents]
  average_answer_speed := [roundTo 1 (wp * average_handling_time /
    (num_agents - traffic_intensity))]
  percent_calls_answered_immediately := [roundTo 2 ((1 - wp) * 100)]
  maximum_occupancy := [roundTo 2 (traffic_intensity / num_agents * 100)]
  num_shrinkage := [Int.ceil (num_agents / (1 - shrinkage))]

/-- The staffing search `forward` (main.py lines 111-188), with an explicit
fuel bound on the number of loop iterations.  Each iteration evaluates the
waiting probability and service level at the current agent count, appends one
row of metrics, and either stops (service level at or above the target) or
retries with one more agent.  `none` models a Python exception inside an
iteration (a division by zero in the occupancy or shrinkage expressions, or a
failed `waiting_probability`) as well as fuel exhaustion. -/
noncomputable def forward :
    ℕ → ℝ → ℝ → ℝ → ℝ → ℝ → ℝ → Option ForwardResult
  | 0, _, _, _, _, _, _ => none
  | (fuel+1), traffic_intensity, num_agents, target_answer_time,
      target_service_level_agreement, average_handling_time, shrinkage =>
    match waiting_probability num_agents traffic_intensity with
    | none => none
    | some wp =>
      if num_agents = 0 ∨ (1 : ℝ) - shrinkage = 0 then none
      else if service_level_agreement num_agents target_answer_time
          average_handling_time wp traffic_intensity <
          target_service_level_agreement then
        (forward fuel traffic_intensity (num_agents + 1) target_answer_time
          target_service_level_agreement average_handling_time shrinkage).map
          (fun rest => (forwardRow traffic_intensity num_agents target_answer_time
            average_handling_time shrinkage wp).append rest)
      else some (forwardRow traffic_intensity num_agents target_answer_time
        average_handling_time shrinkage wp)

section PyRoundLemmas

theorem pyRound_eq_low (x : ℝ) (z : ℤ) (h1 : (z : ℝ) ≤ x) (h2 : x - z < 1/2) :
    pyRound x = z := by
  have hf : ⌊x⌋ = z := Int.floor_eq_iff.mpr ⟨h1, by linarith⟩
  unfold pyRound
  rw [hf, if_pos (by linarith)]

theorem pyRound_eq_high (x : ℝ) (z : ℤ) (h1 : 1/2 < x - z) (h2 : x < z + 1) :
    pyRound x = z + 1 := by
  have hf : ⌊x⌋ = z := Int.floor_eq_iff.mpr ⟨by linarith, by linarith⟩
  unfold pyRound
  rw [hf, if_neg (by linarith), if_pos (by linarith)]

theorem pyRound_intCast (m : ℤ) : pyRound (m : ℝ) = m :=
  pyRound_eq_low _ m le_rfl (by norm_num)

theorem pyRound_natCast (n : ℕ) : pyRound (n : ℝ) = n := by
  simpa using pyRound_intCast n

theorem floor_le_pyRound (x : ℝ) : ⌊x⌋ ≤ pyRound x := by
  unfold pyRound
  split_ifs <;> omega

theorem pyRound_nonneg (x : ℝ) (hx : 0 ≤ x) : 0 ≤ pyRound x :=
  le_trans (Int.le_floor.mpr (by exact_mod_cast hx)) (floor_le_pyRound x)

end PyRoundLemmas

section WaitingProbabilityLemmas

theorem factorial_cast_pos (n : ℕ) : (0 : ℝ) < (Nat.factorial n : ℝ) := by
  exact_mod_cast n.factorial_pos

theorem yval_ge_one (A : ℝ) (hA : 0 ≤ A) (N : ℕ) : 1 ≤ yval A N := by
  unfold yval
  have h : 0 ≤ ∑ i ∈ Finset.range N, A ^ i / (Nat.factorial i : ℝ) :=
    Finset.sum_nonneg fun i _ => div_nonneg (pow_nonneg hA i) (factorial_cast_pos i).le
  linarith

theorem xval_nonneg (A : ℝ) (N : ℕ) (hA : 0 ≤ A) (hN : A < N) : 0 ≤ xval A N := by
  unfold xval
  have h1 : (0 : ℝ) < (N : ℝ) - A := by linarith
  have h2 : (0 : ℝ) ≤ (N : ℝ) := le_trans hA hN.le
  exact div_nonneg
    (mul_nonneg (div_nonneg (pow_nonneg hA N) (factorial_cast_pos N).le) h2) h1.le

theorem wp_denom_pos (A : ℝ) (N : ℕ) (hA : 0 ≤ A) (hN : A < N) :
    0 < yval A N + xval A N := by
  have h1 := yval_ge_one A hA N
  have h2 := xval_nonneg A N hA hN
  linarith

/-- At an integer agent count the code-level waiting probability reduces to the
all-rounded formula pieces `xval` and `yval`. -/
theorem waiting_probability_natCast (n : ℕ) (A : ℝ) :
    waiting_probability (n : ℝ) A =
      if (n : ℝ) - A = 0 then none
      else if yval A n + xval A n = 0 then none
      else some (xval A n / (yval A n + xval A n)) := by
  have h0 : ¬ ((n : ℤ) < 0) := not_lt.mpr (Int.natCast_nonneg n)
  simp only [waiting_probability, xval, yval, pyRound_natCast, Int.toNat_natCast,
    Real.rpow_natCast, h0, false_or]

end WaitingProbabilityLemmas

section Monotonicity

theorem xval_eq (A : ℝ) (N : ℕ) :
    xval A N = A ^ N * (N : ℝ) / ((Nat.factorial N : ℝ) * ((N : ℝ) - A)) := by
  unfold xval
  rw [div_mul_eq_mul_div, div_div]

theorem xval_succ_eq (A : ℝ) (N : ℕ) (hN : (N : ℝ) + 1 - A ≠ 0) :
    xval A (N + 1) = A ^ N * A / ((Nat.factorial N : ℝ) * ((N : ℝ) + 1 - A)) := by
  have h1 : (Nat.factorial N : ℝ) ≠ 0 := (factorial_cast_pos N).ne'
  have h2 : ((N : ℝ) + 1) ≠ 0 := by positivity
  unfold xval
  rw [Nat.factorial_succ, pow_succ]
  push_cast
  field_simp
  ring

theorem yval_succ_eq (A : ℝ) (N : ℕ) :
    yval A (N + 1) = yval A N + A ^ N / (Nat.factorial N : ℝ) := by
  unfold yval
  rw [Finset.sum_range_succ]
  ring

theorem frac_mono (x1 y1 x2 y2 : ℝ) (hx1 : 0 ≤ x1) (hy1 : 1 ≤ y1)
    (hx2 : 0 ≤ x2) (hy2 : 1 ≤ y2) (hkey : x2 * y1 ≤ x1 * y2) :
    x2 / (y2 + x2) ≤ x1 / (y1 + x1) := by
  rw [div_le_div_iff (by linarith) (by linarith)]
  nlinarith

theorem xy_key (A : ℝ) (N : ℕ) (hA : 0 ≤ A) (hN : A < N) :
    xval A (N + 1) * yval A N ≤ xval A N * yval A (N + 1) := by
  have hFpos : (0 : ℝ) < (Nat.factorial N : ℝ) := factorial_cast_pos N
  have hFne : (Nat.factorial N : ℝ) ≠ 0 := hFpos.ne'
  have hNA : (0 : ℝ) < (N : ℝ) - A := by linarith
  have hNA1 : (0 : ℝ) < (N : ℝ) + 1 - A := by linarith
  have hNpos : (0 : ℝ) < (N : ℝ) := lt_of_le_of_lt hA hN
  have hP : (0 : ℝ) ≤ A ^ N := pow_nonneg hA N
  have hy1 : 1 ≤ yval A N := yval_ge_one A hA N
  rw [xval_succ_eq A N hNA1.ne', xval_eq A N, yval_succ_eq A N,
    div_mul_eq_mul_div, div_mul_eq_mul_div,
    div_le_div_iff (by positivity) (by positivity)]
  have collapse : A ^ N * (N : ℝ) * (yval A N + A ^ N / (Nat.factorial N : ℝ)) *
      ((Nat.factorial N : ℝ) * ((N : ℝ) + 1 - A)) =
      A ^ N * (N : ℝ) * (yval A N * (Nat.factorial N : ℝ) + A ^ N) *
        ((N : ℝ) + 1 - A) := by
    field_simp
    ring
  rw [collapse]
  have hkey0 : A * ((N : ℝ) - A) ≤ (N : ℝ) * ((N : ℝ) + 1 - A) := by
    nlinarith [sq_nonneg ((N : ℝ) - A)]
  have h1 : A * ((N : ℝ) - A) * (A ^ N * (yval A N * (Nat.factorial N : ℝ))) ≤
      (N : ℝ) * ((N : ℝ) + 1 - A) * (A ^ N * (yval A N * (Nat.factorial N : ℝ))) :=
    mul_le_mul_of_nonneg_right hkey0
      (mul_nonneg hP (mul_nonneg (by linarith) hFpos.le))
  have h2 : (0 : ℝ) ≤ A ^ N * A ^ N * (N : ℝ) * ((N : ℝ) + 1 - A) := by positivity
  nlinarith [h1, h2]

theorem wpval_succ_le (A : ℝ) (N : ℕ) (hA : 0 ≤ A) (hN : A < N) :
    wpval A (N + 1) ≤ wpval A N := by
  have hN1 : A < ((N + 1 : ℕ) : ℝ) := by push_cast; linarith
  unfold wpval
  exact frac_mono (xval A N) (yval A N) (xval A (N + 1)) (yval A (N + 1))
    (xval_nonneg A N hA hN) (yval_ge_one A hA N)
    (xval_nonneg A (N + 1) hA (by exact_mod_cast hN1)) (yval_ge_one A hA (N + 1))
    (xy_key A N hA hN)

theorem wpval_anti (A : ℝ) (hA : 0 ≤ A) (n m : ℕ) (hn : A < (n : ℝ))
    (hnm : n ≤ m) : wpval A m ≤ wpval A n := by
  induction m, hnm using Nat.le_induction with
  | base => exact le_rfl
  | succ m hm IH =>
    have hAm : A < (m : ℝ) := lt_of_lt_of_le hn (by exact_mod_cast hm)
    exact le_trans (wpval_succ_le A m hA hAm) IH

theorem waiting_probability_natCast_some (n : ℕ) (A : ℝ) (hA : 0 ≤ A)
    (hn : A < (n : ℝ)) : waiting_probability (n : ℝ) A = some (wpval A n) := by
  have hne : (n : ℝ) - A ≠ 0 := by
    have : (0 : ℝ) < (n : ℝ) - A := by linarith
    exact this.ne'
  have hden : yval A n + xval A n ≠ 0 := (wp_denom_pos A n hA hn).ne'
  rw [waiting_probability_natCast, if_neg hne, if_neg hden]
  rfl

end Monotonicity

section ForwardLemmas

theorem forward_zero (A n T tsla AHT shr : ℝ) :
    forward 0 A n T tsla AHT shr = none := rfl

theorem forward_stop (fuel : ℕ) (A n T tsla AHT shr wp : ℝ)
    (hwp : waiting_probability n A = some wp)
    (h1 : ¬(n = 0 ∨ (1 : ℝ) - shr = 0))
    (h2 : ¬(service_level_agreement n T AHT wp A < tsla)) :
    forward (fuel + 1) A n T tsla AHT shr = some (forwardRow A n T AHT shr wp) := by
  simp only [forward, hwp, if_neg h1, if_neg h2]

theorem forward_go (fuel : ℕ) (A n T tsla AHT shr wp : ℝ)
    (hwp : waiting_probability n A = some wp)
    (h1 : ¬(n = 0 ∨ (1 : ℝ) - shr = 0))
    (h2 : service_level_agreement n T AHT wp A < tsla) :
    forward (fuel + 1) A n T tsla AHT shr =
      (forward fuel A (n + 1) T tsla AHT shr).map
        (fun rest => (forwardRow A n T AHT shr wp).append rest) := by
  simp only [forward, hwp, if_neg h1, if_pos h2]

/-- Structural facts about every terminating run of the staffing loop: the
seven lists have the same positive length, and the agent-count list is the
run of consecutive values starting at the initial agent count. -/
theorem forward_shape (fuel : ℕ) (A n T tsla AHT shr : ℝ) (r : ForwardResult)
    (h : forward fuel A n T tsla AHT shr = some r) :
    0 < r.wp_list.length ∧
    r.sla_list.length = r.wp_list.length ∧
    r.agent_list.length = r.wp_list.length ∧
    r.average_answer_speed.length = r.wp_list.length ∧
    r.percent_calls_answered_immediately.length = r.wp_list.length ∧
    r.maximum_occupancy.length = r.wp_list.length ∧
    r.num_shrinkage.length = r.wp_list.length ∧
    r.agent_list = (List.range r.wp_list.length).map (fun i : ℕ => n + (i : ℝ)) := by
  induction fuel generalizing n r with
  | zero => exact absurd h (by simp [forward])
  | succ fuel IH =>
    cases hwp : waiting_probability n A with
    | none => simp only [forward, hwp] at h; exact Option.noConfusion h
    | some wp =>
      simp only [forward, hwp] at h
      by_cases h1 : n = 0 ∨ (1 : ℝ) - shr = 0
      · rw [if_pos h1] at h; exact Option.noConfusion h
      rw [if_neg h1] at h
      by_cases h2 : service_level_agreement n T AHT wp A < tsla
      · rw [if_pos h2] at h
        cases hrec : forward fuel A (n + 1) T tsla AHT shr with
        | none => rw [hrec] at h; exact Option.noConfusion h
        | some rest =>
          rw [hrec] at h
          simp only [Option.map_some', Option.some.injEq] at h
          obtain ⟨hl0, hl1, hl2, hl3, hl4, hl5, hl6, hagents⟩ :=
            IH (n + 1) rest hrec
          subst h
          simp only [ForwardResult.append, forwardRow, List.singleton_append,
            List.length_cons]
          refine ⟨by omega, by omega, by omega, by omega, by omega, by omega,
            by omega, ?_⟩
          rw [List.range_succ_eq_map, List.map_cons, List.map_map]
          congr 1
          · norm_num
          · rw [hagents]
            apply List.map_congr_left
            intro i _
            simp only [Function.comp_apply]
            push_cast
            ring
      · rw [if_neg h2] at h
        simp only [Option.some.injEq] at h
        subst h
        simp [forwardRow, List.range_succ]

end ForwardLemmas

section Crossing

/-- First-crossing structure of every terminating run, stated for the
unrounded service levels that the loop condition actually tests: every
iteration before the last sees a service level strictly below the target, and
the last iteration sees one at or above it. -/
theorem forward_crossing (fuel : ℕ) (A n T tsla AHT shr : ℝ) (r : ForwardResult)
    (h : forward fuel A n T tsla AHT shr = some r) :
    (∀ i : ℕ, i + 1 < r.sla_list.length →
      ∃ s, trial_sla A (n + (i : ℝ)) T AHT = some s ∧ s < tsla) ∧
    (∃ s, trial_sla A (n + ((r.sla_list.length - 1 : ℕ) : ℝ)) T AHT = some s ∧
      tsla ≤ s) := by
  induction fuel generalizing n r with
  | zero => exact absurd h (by simp [forward])
  | succ fuel IH =>
    cases hwp : waiting_probability n A with
    | none => simp only [forward, hwp] at h; exact Option.noConfusion h
    | some wp =>
      simp only [forward, hwp] at h
      by_cases h1 : n = 0 ∨ (1 : ℝ) - shr = 0
      · rw [if_pos h1] at h; exact Option.noConfusion h
      rw [if_neg h1] at h
      have htrial : trial_sla A n T AHT =
          some (service_level_agreement n T AHT wp A) := by
        rw [trial_sla, hwp]; rfl
      by_cases h2 : service_level_agreement n T AHT wp A < tsla
      · rw [if_pos h2] at h
        cases hrec : forward fuel A (n + 1) T tsla AHT shr with
        | none => rw [hrec] at h; exact Option.noConfusion h
        | some rest =>
          rw [hrec] at h
          simp only [Option.map_some', Option.some.injEq] at h
          obtain ⟨ih1, ih2⟩ := IH (n + 1) rest hrec
          have hl0 : 0 < rest.sla_list.length := by
            obtain ⟨hw, hs, _⟩ := forward_shape fuel A (n + 1) T tsla AHT shr
              rest hrec
            omega
          subst h
          simp only [ForwardResult.append, forwardRow, List.singleton_append,
            List.length_cons]
          constructor
          · intro i hi
            cases i with
            | zero =>
              refine ⟨service_level_agreement n T AHT wp A, ?_, h2⟩
              simpa using htrial
            | succ j =>
              obtain ⟨s, hs1, hs2⟩ := ih1 j (by omega)
              refine ⟨s, ?_, hs2⟩
              have hcast : n + ((j + 1 : ℕ) : ℝ) = n + 1 + (j : ℝ) := by
                push_cast; ring
              rw [hcast]
              exact hs1
          · obtain ⟨s, hs1, hs2⟩ := ih2
            refine ⟨s, ?_, hs2⟩
            have hcast : n + ((rest.sla_list.length + 1 - 1 : ℕ) : ℝ) =
                n + 1 + ((rest.sla_list.length - 1 : ℕ) : ℝ) := by
              rw [Nat.add_sub_cancel, Nat.cast_sub hl0]
              push_cast
              ring
            rw [hcast]
            exact hs1
      · rw [if_neg h2] at h
        simp only [Option.some.injEq] at h
        subst h
        simp only [forwardRow, List.length_cons, List.length_nil]
        constructor
        · intro i hi
          omega
        · refine ⟨service_level_agreement n T AHT wp A, ?_, not_lt.mp h2⟩
          simpa using htrial

end Crossing

section Evaluation

theorem waiting_probability_some_pos (num_agents A : ℝ) (hA : 0 < A)
    (hn : A < num_agents) :
    ∃ w, waiting_probability num_agents A = some w ∧ 0 < w := by
  have hpos : 0 < num_agents := lt_trans hA hn
  have hsub : 0 < num_agents - A := by linarith
  have hx : 0 < A ^ num_agents / (Nat.factorial (pyRound num_agents).toNat : ℝ) *
      num_agents / (num_agents - A) :=
    div_pos (mul_pos (div_pos (Real.rpow_pos_of_pos hA _)
      (factorial_cast_pos _)) hpos) hsub
  have hy : 0 ≤ ∑ i ∈ Finset.range (pyRound num_agents).toNat,
      A ^ i / (Nat.factorial i : ℝ) :=
    Finset.sum_nonneg fun i _ =>
      div_nonneg (pow_nonneg hA.le i) (factorial_cast_pos i).le
  have hsum : 0 < (1 + ∑ i ∈ Finset.range (pyRound num_agents).toNat,
      A ^ i / (Nat.factorial i : ℝ)) +
      A ^ num_agents / (Nat.factorial (pyRound num_agents).toNat : ℝ) *
        num_agents / (num_agents - A) := by linarith
  have hc1 : ¬(pyRound num_agents < 0 ∨ num_agents - A = 0) := by
    push_neg
    exact ⟨pyRound_nonneg _ hpos.le, hsub.ne'⟩
  refine ⟨_, ?_, div_pos hx hsum⟩
  simp only [waiting_probability]
  rw [if_neg hc1, if_neg hsum.ne']

theorem waiting_probability_zero_traffic (n : ℝ) (hn : 0 < n) :
    waiting_probability n 0 = some 0 := by
  have hx : (0 : ℝ) ^ n = 0 := Real.zero_rpow hn.ne'
  have hy : 0 ≤ ∑ i ∈ Finset.range (pyRound n).toNat,
      (0 : ℝ) ^ i / (Nat.factorial i : ℝ) :=
    Finset.sum_nonneg fun i _ =>
      div_nonneg (pow_nonneg le_rfl i) (factorial_cast_pos i).le
  have hc1 : ¬(pyRound n < 0 ∨ n - 0 = 0) := by
    push_neg
    exact ⟨pyRound_nonneg n hn.le, by simpa using hn.ne'⟩
  have hc2 : (1 + ∑ i ∈ Finset.range (pyRound n).toNat,
      (0 : ℝ) ^ i / (Nat.factorial i : ℝ)) +
      (0 : ℝ) ^ n / (Nat.factorial (pyRound n).toNat : ℝ) * n / (n - 0) ≠ 0 := by
    rw [hx]
    simp only [zero_div, zero_mul, add_zero]
    linarith
  simp only [waiting_probability]
  rw [if_neg hc1, if_neg hc2, hx]
  simp

theorem service_level_agreement_zero_wp (n T AHT A : ℝ) :
    service_level_agreement n T AHT 0 A = 1 := by
  simp [service_level_agreement]

theorem forward_zero_traffic_single (fuel : ℕ) (n T tsla AHT : ℝ)
    (hn : 0 < n) (hts : tsla ≤ 1) :
    forward (fuel + 1) 0 n T tsla AHT 0 = some (forwardRow 0 n T AHT 0 0) := by
  apply forward_stop
  · exact waiting_probability_zero_traffic n hn
  · push_neg
    exact ⟨hn.ne', by norm_num⟩
  · rw [service_level_agreement_zero_wp]
    exact not_lt.mpr hts

theorem forward_impossible_target_none (fuel : ℕ) (n : ℝ) (hn : 1 ≤ n) :
    forward fuel (1/2) n 0 (3/2) 1 0 = none := by
  induction fuel generalizing n with
  | zero => rfl
  | succ fuel IH =>
    obtain ⟨w, hw, hwpos⟩ :=
      waiting_probability_some_pos n (1/2) (by norm_num) (by linarith)
    have hE : 0 < Real.exp 1 ^ (-((n - 1/2) * ((0 : ℝ) / 1))) :=
      Real.rpow_pos_of_pos (Real.exp_pos 1) _
    have hsla : service_level_agreement n 0 1 w (1/2) < 3/2 := by
      unfold service_level_agreement
      nlinarith [mul_pos hwpos hE]
    rw [forward_go fuel (1/2) n 0 (3/2) 1 0 w hw
      (by push_neg; exact ⟨by linarith, by norm_num⟩) hsla,
      IH (n + 1) (by linarith)]
    rfl

end Evaluation

/-- C1 (amended): at an integer agent count, which is the only kind the
staffing search ever passes, `waiting_probability` computes exactly the
all-rounded Erlang-C formula `x / (x + y)` of the claim.  For non-integer
agent counts the code rounds only the factorial argument and the summation
range, not the power, multiplier or stability denominator (see the
counterexample). -/
theorem waiting_probability_eq_spec_at_integer (A : ℝ) (n : ℕ)
    (hA : 0 ≤ A) (hn : A < (n : ℝ)) :
    waiting_probability (n : ℝ) A = some (waiting_probability_spec (n : ℝ) A) := by
  rw [waiting_probability_natCast_some n A hA hn]
  unfold waiting_probability_spec wpval
  rw [pyRound_natCast]
  simp only [Int.toNat_natCast]
  congr 1
  rw [add_comm]

/-- Witness for `waiting_probability_eq_spec_at_integer` at `A = 1`, `n = 2`. -/
theorem waiting_probability_eq_spec_at_integer_witness :
    waiting_probability ((2 : ℕ) : ℝ) 1 =
      some (waiting_probability_spec ((2 : ℕ) : ℝ) 1) :=
  waiting_probability_eq_spec_at_integer 1 2 (by norm_num) (by norm_num)

/-- C2 (amended): the first-crossing property holds for the unrounded service
levels tested by the loop: every iteration before the last computes a service
level strictly below the target and the last computes one at or above it.
The recorded `sla_list` entries are these values times 100 rounded to two
decimals, which may tie with or cross the target percentage (see the
counterexample). -/
theorem forward_first_crossing_unrounded (fuel : ℕ) (A n T tsla AHT shr : ℝ)
    (r : ForwardResult) (h : forward fuel A n T tsla AHT shr = some r) :
    (∀ i : ℕ, i + 1 < r.sla_list.length →
      ∃ s, trial_sla A (n + (i : ℝ)) T AHT = some s ∧ s < tsla) ∧
    (∃ s, trial_sla A (n + ((r.sla_list.length - 1 : ℕ) : ℝ)) T AHT = some s ∧
      tsla ≤ s) :=
  forward_crossing fuel A n T tsla AHT shr r h

/-- Witness for `forward_first_crossing_unrounded` on a concrete
single-iteration run. -/
theorem forward_first_crossing_unrounded_witness :
    (∀ i : ℕ, i + 1 < (forwardRow 0 2 0 1 0 0).sla_list.length →
      ∃ s, trial_sla 0 (2 + (i : ℝ)) 0 1 = some s ∧ s < 3/4) ∧
    (∃ s, trial_sla 0
      (2 + (((forwardRow 0 2 0 1 0 0).sla_list.length - 1 : ℕ) : ℝ)) 0 1 =
      some s ∧ (3 : ℝ)/4 ≤ s) :=
  forward_first_crossing_unrounded 1 0 2 0 (3/4) 1 0 (forwardRow 0 2 0 1 0 0)
    (forward_zero_traffic_single 0 2 0 (3/4) 1 (by norm_num) (by norm_num))

/-- C4: with an unreachable service-level target (alleged to trigger a
`ConvergenceFailure`) the staffing search never terminates no matter how many
iterations it is allowed: the code has no iteration bound and no
`ConvergenceFailure`.  Concrete failing input: traffic 1/2, starting agent
count 1, target answer time 0, target service level 3/2 (at least 1),
handling time 1, shrinkage 0. -/
theorem forward_never_terminates_for_unreachable_target (fuel : ℕ) :
    forward fuel (1/2) 1 0 (3/2) 1 0 = none :=
  forward_impossible_target_none fuel 1 le_rfl

/-- C5: the blended model computes `p * trafficVacation + (1-p) * trafficNormal`
for the traffic intensity and `round(p * vacationAgents + (1-p) * normalAgents)`
for the starting agent count (Python `round`, ties to even), and at the
endpoints `p = 0` and `p = 1` it reproduces the pure normal and pure vacation
values respectively. -/
theorem blended_model_formulas (p tn tv : ℝ) (na va : ℤ)
    (h0 : 0 ≤ p) (h1 : p ≤ 1) :
    blended_traffic p tn tv = p * tv + (1 - p) * tn ∧
    blended_num_agents p na va = pyRound (p * (va : ℝ) + (1 - p) * (na : ℝ)) ∧
    (p = 0 → blended_traffic p tn tv = tn ∧ blended_num_agents p na va = na) ∧
    (p = 1 → blended_traffic p tn tv = tv ∧ blended_num_agents p na va = va) := by
  refine ⟨rfl, rfl, ?_, ?_⟩
  · rintro rfl
    constructor
    · unfold blended_traffic
      ring
    · unfold blended_num_agents
      rw [show (0 : ℝ) * (va : ℝ) + (1 - 0) * (na : ℝ) = ((na : ℤ) : ℝ) by ring]
      exact pyRound_intCast na
  · rintro rfl
    constructor
    · unfold blended_traffic
      ring
    · unfold blended_num_agents
      rw [show (1 : ℝ) * (va : ℝ) + (1 - 1) * (na : ℝ) = ((va : ℤ) : ℝ) by ring]
      exact pyRound_intCast va

/-- Witness for `blended_model_formulas` at `p = 0` with the agent-count
constants of the script. -/
theorem blended_model_formulas_witness :
    blended_traffic 0 5 9 = 0 * 9 + (1 - 0) * 5 ∧
    blended_num_agents 0 7 2 = pyRound (0 * ((2 : ℤ) : ℝ) + (1 - 0) * ((7 : ℤ) : ℝ)) ∧
    ((0 : ℝ) = 0 → blended_traffic 0 5 9 = 5 ∧ blended_num_agents 0 7 2 = 7) ∧
    ((0 : ℝ) = 1 → blended_traffic 0 5 9 = 9 ∧ blended_num_agents 0 7 2 = 2) :=
  blended_model_formulas 0 5 9 7 2 le_rfl (by norm_num)

/-- C6: with the traffic intensity fixed and non-negative, the waiting
probability computed by the code is monotonically non-increasing in the
(integer) agent count, on the stable range where the agent count exceeds the
traffic intensity. -/
theorem waiting_probability_antitone_in_agents (A : ℝ) (hA : 0 ≤ A) (n m : ℕ)
    (hn : A < (n : ℝ)) (hnm : n ≤ m) :
    ∃ p q, waiting_probability (n : ℝ) A = some p ∧
      waiting_probability (m : ℝ) A = some q ∧ q ≤ p := by
  have hm : A < (m : ℝ) := lt_of_lt_of_le hn (by exact_mod_cast hnm)
  exact ⟨wpval A n, wpval A m, waiting_probability_natCast_some n A hA hn,
    waiting_probability_natCast_some m A hA hm, wpval_anti A hA n m hn hnm⟩

/-- Witness for `waiting_probability_antitone_in_agents` at `A = 1`,
`n = 2`, `m = 3`. -/
theorem waiting_probability_antitone_in_agents_witness :
    ∃ p q, waiting_probability ((2 : ℕ) : ℝ) 1 = some p ∧
      waiting_probability ((3 : ℕ) : ℝ) 1 = some q ∧ q ≤ p :=
  waiting_probability_antitone_in_agents 1 (by norm_num) 2 3 (by norm_num)
    (by norm_num)

/-- C7: the service level is exactly
`1 - wp * exp(-(numAgents - trafficIntensity) * (targetAnswerTime / averageHandlingTime))`,
with no rounding of the agent count anywhere in the formula. -/
theorem service_level_agreement_formula
    (num_agents target_answer_time average_handling_time wait_prob
      traffic_intensity : ℝ)
    (h1 : traffic_intensity < num_agents) (h2 : 0 < average_handling_time) :
    service_level_agreement num_agents target_answer_time
      average_handling_time wait_prob traffic_intensity =
      1 - wait_prob * Real.exp (-((num_agents - traffic_intensity) *
        (target_answer_time / average_handling_time))) := by
  unfold service_level_agreement
  rw [Real.exp_one_rpow]

/-- Witness for `service_level_agreement_formula` at the scenario values
`numAgents = 7`, `T = 20`, `AHT = 180`, `wp = 1/2`, `A = 5`. -/
theorem service_level_agreement_formula_witness :
    service_level_agreement 7 20 180 (1/2) 5 =
      1 - 1/2 * Real.exp (-(((7 : ℝ) - 5) * (20 / 180))) :=
  service_level_agreement_formula 7 20 180 (1/2) 5 (by norm_num) (by norm_num)

/-- C8 (amended): for strictly positive inputs `get_traffic_intensity`
returns `arrivalRate / (numAgents * serviceRate)`, which is non-negative.
The function performs no sign validation: it fails only on a zero denominator
(see the counterexample for a non-positive input it happily accepts). -/
theorem get_traffic_intensity_pos_contract (a n s : ℝ)
    (ha : 0 < a) (hn : 0 < n) (hs : 0 < s) :
    get_traffic_intensity a n s = some (a / (n * s)) ∧ 0 ≤ a / (n * s) := by
  have hns : n * s ≠ 0 := (mul_pos hn hs).ne'
  constructor
  · unfold get_traffic_intensity
    rw [if_neg hns]
  · positivity

/-- Witness for `get_traffic_intensity_pos_contract` at the scenario values
`(225, 7, 60)`. -/
theorem get_traffic_intensity_pos_contract_witness :
    get_traffic_intensity 225 7 60 = some (225 / (7 * 60)) ∧
      (0 : ℝ) ≤ 225 / (7 * 60) :=
  get_traffic_intensity_pos_contract 225 7 60 (by norm_num) (by norm_num)
    (by norm_num)

/-- C8 counterexample: an input with `arrivalRate = -1 ≤ 0` on which the code
returns a value instead of failing, refuting the claim that the function
fails exactly when some input is non-positive. -/
theorem get_traffic_intensity_accepts_nonpositive :
    get_traffic_intensity (-1) 1 1 = some (-1) := by
  unfold get_traffic_intensity
  rw [if_neg (by norm_num)]
  norm_num

/-- C9: the seven output lists of every terminating staffing run have one
common positive length, and the agent-count list is the run of consecutive
values starting at the initial agent count. -/
theorem forward_output_lists_aligned (fuel : ℕ) (A n T tsla AHT shr : ℝ)
    (r : ForwardResult) (h : forward fuel A n T tsla AHT shr = some r) :
    0 < r.wp_list.length ∧
    r.sla_list.length = r.wp_list.length ∧
    r.agent_list.length = r.wp_list.length ∧
    r.average_answer_speed.length = r.wp_list.length ∧
    r.percent_calls_answered_immediately.length = r.wp_list.length ∧
    r.maximum_occupancy.length = r.wp_list.length ∧
    r.num_shrinkage.length = r.wp_list.length ∧
    r.agent_list = (List.range r.wp_list.length).map (fun i : ℕ => n + (i : ℝ)) :=
  forward_shape fuel A n T tsla AHT shr r h

/-- Witness for `forward_output_lists_aligned` on a concrete terminating
run. -/
theorem forward_output_lists_aligned_witness :
    0 < (forwardRow 0 3 0 1 0 0).wp_list.length ∧
    (forwardRow 0 3 0 1 0 0).sla_list.length =
      (forwardRow 0 3 0 1 0 0).wp_list.length ∧
    (forwardRow 0 3 0 1 0 0).agent_list.length =
      (forwardRow 0 3 0 1 0 0).wp_list.length ∧
    (forwardRow 0 3 0 1 0 0).average_answer_speed.length =
      (forwardRow 0 3 0 1 0 0).wp_list.length ∧
    (forwardRow 0 3 0 1 0 0).percent_calls_answered_immediately.length =
      (forwardRow 0 3 0 1 0 0).wp_list.length ∧
    (forwardRow 0 3 0 1 0 0).maximum_occupancy.length =
      (forwardRow 0 3 0 1 0 0).wp_list.length ∧
    (forwardRow 0 3 0 1 0 0).num_shrinkage.length =
      (forwardRow 0 3 0 1 0 0).wp_list.length ∧
    (forwardRow 0 3 0 1 0 0).agent_list =
      (List.range (forwardRow 0 3 0 1 0 0).wp_list.length).map
        (fun i : ℕ => 3 + (i : ℝ)) :=
  forward_output_lists_aligned 1 0 3 0 (4/5) 1 0 (forwardRow 0 3 0 1 0 0)
    (forward_zero_traffic_single 0 3 0 (4/5) 1 (by norm_num) (by norm_num))

/-- C10: the staffing search records the starting agent count before testing
the SLA condition: when the first evaluation already meets the target, the
run terminates with all seven lists of length exactly one, containing that
first evaluation, never an empty result. -/
theorem forward_records_first_evaluation (fuel : ℕ) (A n T tsla AHT shr wp : ℝ)
    (hwp : waiting_probability n A = some wp)
    (hok : ¬(n = 0 ∨ (1 : ℝ) - shr = 0))
    (hmeets : tsla ≤ service_level_agreement n T AHT wp A) :
    forward (fuel + 1) A n T tsla AHT shr = some (forwardRow A n T AHT shr wp) ∧
    (forwardRow A n T AHT shr wp).wp_list.length = 1 ∧
    (forwardRow A n T AHT shr wp).sla_list.length = 1 ∧
    (forwardRow A n T AHT shr wp).agent_list = [n] ∧
    (forwardRow A n T AHT shr wp).average_answer_speed.length = 1 ∧
    (forwardRow A n T AHT shr wp).percent_calls_answered_immediately.length = 1 ∧
    (forwardRow A n T AHT shr wp).maximum_occupancy.length = 1 ∧
    (forwardRow A n T AHT shr wp).num_shrinkage.length = 1 :=
  ⟨forward_stop fuel A n T tsla AHT shr wp hwp hok (not_lt.mpr hmeets),
    rfl, rfl, rfl, rfl, rfl, rfl, rfl⟩

/-- Witness for `forward_records_first_evaluation` on a run whose starting
agent count already meets the target. -/
theorem forward_records_first_evaluation_witness :
    forward 1 0 1 0 (1/2) 1 0 = some (forwardRow 0 1 0 1 0 0) ∧
    (forwardRow 0 1 0 1 0 0).wp_list.length = 1 ∧
    (forwardRow 0 1 0 1 0 0).sla_list.length = 1 ∧
    (forwardRow 0 1 0 1 0 0).agent_list = [1] ∧
    (forwardRow 0 1 0 1 0 0).average_answer_speed.length = 1 ∧
    (forwardRow 0 1 0 1 0 0).percent_calls_answered_immediately.length = 1 ∧
    (forwardRow 0 1 0 1 0 0).maximum_occupancy.length = 1 ∧
    (forwardRow 0 1 0 1 0 0).num_shrinkage.length = 1 :=
  forward_records_first_evaluation 0 0 1 0 (1/2) 1 0 0
    (waiting_probability_zero_traffic 1 (by norm_num))
    (by push_neg; exact ⟨by norm_num, by norm_num⟩)
    (by rw [service_level_agreement_zero_wp]; norm_num)

/-- C3: at `traffic_intensity = 3` and `num_agents = 1` (an unstable pair,
`round(1) = 1 <= 3`) the code raises nothing and returns the finite value
`-3`; no `UnstableQueue` error exists anywhere in the program. -/
theorem waiting_probability_unstable_returns_value :
    waiting_probability 1 3 = some (-3) := by
  have h1 : (1 : ℝ) = ((1 : ℕ) : ℝ) := by norm_num
  rw [h1, waiting_probability_natCast]
  have hx : xval 3 1 = -(3/2) := by
    unfold xval
    norm_num [Nat.factorial]
  have hy : yval 3 1 = 2 := by
    unfold yval
    rw [Finset.sum_range_one]
    norm_num [Nat.factorial]
  rw [if_neg (by norm_num), if_neg (by rw [hx, hy]; norm_num), hx, hy]
  norm_num

/-- C1 counterexample: at traffic intensity `1` and the non-integer agent
count `23/10` (whose Python rounding is `2 > 1`, so the claim applies) the
code returns `23/101`, while the all-rounded formula of the claim gives
`1/4`: the agent count is not rounded throughout the formula. -/
theorem waiting_probability_not_round_throughout :
    pyRound ((23 : ℝ)/10) = 2 ∧
    waiting_probability ((23 : ℝ)/10) 1 = some (23/101) ∧
    waiting_probability_spec ((23 : ℝ)/10) 1 = 1/4 ∧
    ((23 : ℝ)/101) ≠ 1/4 := by
  have hpr : pyRound ((23 : ℝ)/10) = 2 :=
    pyRound_eq_low _ 2 (by norm_num) (by norm_num)
  refine ⟨hpr, ?_, ?_, by norm_num⟩
  · simp only [waiting_probability, hpr, Real.one_rpow,
      show ((2 : ℤ)).toNat = 2 from rfl]
    rw [if_neg (by norm_num)]
    rw [if_neg (by norm_num [Finset.sum_range_succ, Nat.factorial])]
    norm_num [Finset.sum_range_succ, Nat.factorial]
  · unfold waiting_probability_spec
    rw [hpr, show ((2 : ℤ)).toNat = 2 from rfl]
    norm_num [xval, yval, Finset.sum_range_succ, Nat.factorial]

/-- Evaluation of the waiting probability at traffic `2`, four agents. -/
theorem waiting_probability_four_two : waiting_probability 4 2 = some (2/13) := by
  have h : (4 : ℝ) = ((4 : ℕ) : ℝ) := by norm_num
  rw [h, waiting_probability_natCast]
  have hx : xval 2 4 = 4/3 := by
    unfold xval
    norm_num [Nat.factorial]
  have hy : yval 2 4 = 22/3 := by
    unfold yval
    rw [Finset.sum_range_succ, Finset.sum_range_succ, Finset.sum_range_succ,
      Finset.sum_range_succ, Finset.sum_range_zero]
    norm_num [Nat.factorial]
  rw [if_neg (by norm_num), if_neg (by rw [hx, hy]; norm_num), hx, hy]
  norm_num

/-- Evaluation of the waiting probability at traffic `2`, five agents. -/
theorem waiting_probability_five_two : waiting_probability 5 2 = some (1/19) := by
  have h : (5 : ℝ) = ((5 : ℕ) : ℝ) := by norm_num
  rw [h, waiting_probability_natCast]
  have hx : xval 2 5 = 4/9 := by
    unfold xval
    norm_num [Nat.factorial]
  have hy : yval 2 5 = 8 := by
    unfold yval
    rw [Finset.sum_range_succ, Finset.sum_range_succ, Finset.sum_range_succ,
      Finset.sum_range_succ, Finset.sum_range_succ, Finset.sum_range_zero]
    norm_num [Nat.factorial]
  rw [if_neg (by norm_num), if_neg (by rw [hx, hy]; norm_num), hx, hy]
  norm_num

/-- With a zero target answer time the service level collapses to
`1 - wait_prob`. -/
theorem service_level_agreement_zero_T (n AHT wp A : ℝ) (hA : AHT ≠ 0) :
    service_level_agreement n 0 AHT wp A = 1 - wp := by
  unfold service_level_agreement
  rw [show -((n - A) * ((0 : ℝ) / AHT)) = 0 by rw [zero_div]; ring,
    Real.rpow_zero, mul_one]

theorem roundTo_two_eleven_thirteenths :
    roundTo 2 ((11 : ℝ)/13 * 100) = 4231/50 := by
  unfold roundTo
  rw [show (11 : ℝ)/13 * 100 * 10 ^ 2 = 110000/13 by norm_num,
    pyRound_eq_high _ 8461 (by norm_num) (by norm_num)]
  norm_num

theorem roundTo_two_eighteen_nineteenths :
    roundTo 2 ((18 : ℝ)/19 * 100) = 4737/50 := by
  unfold roundTo
  rw [show (18 : ℝ)/19 * 100 * 10 ^ 2 = 180000/19 by norm_num,
    pyRound_eq_high _ 9473 (by norm_num) (by norm_num)]
  norm_num

/-- C2 counterexample: a two-iteration terminating run (traffic `2`, starting
agent count `4`, target answer time `0`, handling time `1`, shrinkage `0`,
target service level `0.8462`) whose recorded `sla_list` is
`[84.62, 94.74]`: the run terminates at the second iteration, yet the
recorded service level of the prior (non-final) entry is `84.62`, which is
not strictly below the target percentage `0.8462 * 100 = 84.62` — the
two-decimal rounding of the recorded values breaks the strict first-crossing
property as claimed. -/
theorem forward_recorded_crossing_fails :
    (forward 2 2 4 0 (4231/5000) 1 0).map ForwardResult.sla_list =
      some [4231/50, 4737/50] ∧
    ¬((4231 : ℝ)/50 < 4231/5000 * 100) := by
  have hsla4 : service_level_agreement 4 0 1 (2/13) 2 = 11/13 := by
    rw [service_level_agreement_zero_T 4 1 (2/13) 2 (by norm_num)]
    norm_num
  have hsla5 : service_level_agreement 5 0 1 (1/19) 2 = 18/19 := by
    rw [service_level_agreement_zero_T 5 1 (1/19) 2 (by norm_num)]
    norm_num
  constructor
  · rw [forward_go 1 2 4 0 (4231/5000) 1 0 (2/13) waiting_probability_four_two
      (by push_neg; exact ⟨by norm_num, by norm_num⟩)
      (by rw [hsla4]; norm_num)]
    rw [show (4 : ℝ) + 1 = 5 by norm_num]
    rw [forward_stop 0 2 5 0 (4231/5000) 1 0 (1/19) waiting_probability_five_two
      (by push_neg; exact ⟨by norm_num, by norm_num⟩)
      (by rw [hsla5]; exact not_lt.mpr (by norm_num))]
    simp only [Option.map_some', ForwardResult.append, forwardRow,
      List.singleton_append]
    rw [hsla4, hsla5, roundTo_two_eleven_thirteenths,
      roundTo_two_eighteen_nineteenths]
  · norm_num
